import Mathlib

/-!
log-gen: the rate-pacing loop of `main.go`

A shallow embedding of `main` (src/main.go): validation of the `LPS`
environment variable, the select loop over the 10 ms ticker and the signal
channel, the bounded emission loop of the ticker case, and the final summary.

Conventions of the embedding
* `time.Duration` values are integers counting nanoseconds.
* `generatedLineCount` (an `int64`) is an `Int`.  Its only update is the
  increment at line 72, guarded by `generatedLineCount < expectedLines`, so the
  incremented value never exceeds the `int64` value `expectedLines` and cannot
  wrap (`emitLoop_count_le_sup` below).
* The logger is a list of entries, oldest first.
* The environment (the `LPS` variable, the generated uuid, the values returned
  by `rand.Intn`, the clock readings and the order in which the two channels
  become ready) is passed in explicitly.
* `float64` arithmetic is not modelled bit by bit: `expectedLines` is computed
  in exact integer arithmetic, and the quotient of the summary line keeps only
  the IEEE-754 case distinction on a zero divisor.
-/

namespace LogGen

/-! ## Data -/

/-- The package variable `logLines` (main.go:16-21). -/
def logLines : List String :=
  [ "Log line",
    "Hello, world",
    "This is a bit longer",
    "And this one is a much longer log line that also includes some fixed numbers like 1,000,000" ]

/-- Result of a `float64` division as far as its IEEE-754 class goes: a finite
quotient (kept exact, rounding is not modelled), an infinity, or not-a-number. -/
inductive F64
  | finite (q : ℚ)
  | posInf
  | negInf
  | nan
  deriving DecidableEq

/-- One call of the zap logger. -/
inductive LogEntry
  /-- Any `logger.Error(msg, ...)`: the configuration errors. -/
  | error (msg : String)
  /-- A plain `logger.Info(msg)`: the start banner and "Stopped.". -/
  | info (msg : String)
  /-- The record of line 73: template text, `counter` field, `service.instance.id`. -/
  | record (line : String) (counter : Int) (instanceId : String)
  /-- The summary of lines 84-85: elapsed nanoseconds, total lines, lines per second. -/
  | summary (sinceStart : Int) (total : Int) (rate : F64)
  deriving DecidableEq

/-- What the process reads from outside before and while it runs. -/
structure Env where
  /-- The `LPS` environment variable, `none` when it is not set. -/
  lpsStr : Option String
  /-- The value of `uuid.New().String()` (line 50-51). -/
  uuidStr : String
  /-- The value `rand.Intn(len(logLines))` returned at line 71 when
  `generatedLineCount` had the given value (each value occurs once in a run). -/
  draw : Int → Fin logLines.length

/-- One iteration of the `select` at line 61: which channel was ready. -/
inductive Event
  /-- `case <-ticker`, with the value of `time.Now().Sub(startTime)` read at
  line 63, in nanoseconds. -/
  | tick (dur : Int)
  /-- `case <-signalsChannel`. -/
  | signal
  deriving DecidableEq

/-- The local `max := 10000` of line 69. -/
def burstCap : Nat := 10000

/-- The period of `time.Tick(10 * time.Millisecond)` in nanoseconds (line 54). -/
def tickInterval : Int := 10000000

/-- Nanoseconds per second (`time.Second`). -/
def nsPerSecond : Int := 1000000000

/-! ## Parsing `LPS` -/

/-- Value of a decimal digit, `none` for any other character. -/
def digitVal (ch : Char) : Option Nat :=
  if '0' ≤ ch ∧ ch ≤ '9' then some (ch.toNat - '0'.toNat) else none

/-- Decimal value of a digit string given the value read so far; `none` as
soon as a character is not a digit. -/
def parseDigits : List Char → Nat → Option Nat
  | [], acc => some acc
  | ch :: rest, acc =>
    match digitVal ch with
    | some d => parseDigits rest (10 * acc + d)
    | none => none

/-- The library function `strconv.Atoi` on a 64-bit platform, `none` standing
for a non-nil error: an optional sign, then at least one decimal digit and
nothing else, the value within the `int` range. -/
def Atoi (s : String) : Option Int :=
  let cs := s.toList
  let signed : Bool × List Char :=
    match cs with
    | '-' :: rest => (true, rest)
    | '+' :: rest => (false, rest)
    | _ => (false, cs)
  match signed.2 with
  | [] => none
  | ds =>
    match parseDigits ds 0 with
    | none => none
    | some n =>
      let v : Int := if signed.1 then -(n : Int) else (n : Int)
      if -(2 : Int) ^ 63 ≤ v ∧ v < (2 : Int) ^ 63 then some v else none

/-! ## The ticker case -/

/-- Line 64, `int64(dur.Seconds() * float64(lps))`, in exact arithmetic: the
product of the elapsed seconds and the rate, truncated toward zero as the Go
conversion to `int64` does. -/
def expectedLines (dur lps : Int) : Int :=
  Int.tdiv (dur * lps) nsPerSecond

/-- State at the exit of the loop of lines 70-75. -/
structure TickResult where
  /-- Value of `generatedLineCount` at loop exit. -/
  generatedLineCount : Int
  /-- Value of `max` at loop exit. -/
  max : Nat
  /-- The records logged by the loop, oldest first. -/
  out : List LogEntry

/-- The loop `for generatedLineCount < expectedLines && max > 0 { ... }` of
lines 70-75, started with the given values of `max` and `generatedLineCount`
and with `out` already logged.  `max` only counts down from 10000 to 0, so it
is a natural number and the recursion is on it. -/
def emitLoop (env : Env) (expectedLines : Int) : Nat → Int → List LogEntry → TickResult
  | 0, generatedLineCount, out => ⟨generatedLineCount, 0, out⟩
  | max + 1, generatedLineCount, out =>
    if generatedLineCount < expectedLines then
      let logLine := logLines.get (env.draw generatedLineCount)
      emitLoop env expectedLines max (generatedLineCount + 1)
        (out ++ [LogEntry.record logLine (generatedLineCount + 1) env.uuidStr])
    else
      ⟨generatedLineCount, max + 1, out⟩

/-- The body of `case <-ticker` once `expectedLines` is known (lines 69-75);
`out` of the result holds the records of this tick only. -/
def tickWith (env : Env) (expectedLines generatedLineCount : Int) : TickResult :=
  emitLoop env expectedLines burstCap generatedLineCount []

/-- The whole `case <-ticker` (lines 63-75) for rate `lps` at elapsed time `dur`. -/
def tick (env : Env) (lps dur generatedLineCount : Int) : TickResult :=
  tickWith env (expectedLines dur lps) generatedLineCount

/-! ## The select loop and `main` -/

/-- State of the loop of lines 59-81 between two iterations. -/
structure RunState where
  /-- The variable `generatedLineCount`. -/
  generatedLineCount : Int
  /-- Everything logged since the loop was entered, oldest first. -/
  out : List LogEntry
  /-- Whether `break loop` has been executed. -/
  stopped : Bool

/-- State on entry to the loop (line 55). -/
def RunState.init : RunState := ⟨0, [], false⟩

/-- One iteration of the loop.  After `break loop` the loop takes no further
event. -/
def step (env : Env) (lps : Int) (s : RunState) (ev : Event) : RunState :=
  if s.stopped then s
  else
    match ev with
    | Event.tick dur =>
      let r := tick env lps dur s.generatedLineCount
      ⟨r.generatedLineCount, s.out ++ r.out, false⟩
    | Event.signal =>
      ⟨s.generatedLineCount, s.out ++ [LogEntry.info "Stopped."], true⟩

/-- The loop run over a sequence of channel events from a given state. -/
def runFrom (env : Env) (lps : Int) (s : RunState) (events : List Event) : RunState :=
  events.foldl (step env lps) s

/-- The loop run from its initial state. -/
def runLoop (env : Env) (lps : Int) (events : List Event) : RunState :=
  runFrom env lps RunState.init events

/-- The quotient `float64(generatedLineCount) / sinceStart.Seconds()` of line
85.  Go does not trap a zero divisor of a `float64` division: the result is
NaN for `0/0` and an infinity otherwise. -/
def observedRate (generatedLineCount sinceStart : Int) : F64 :=
  if sinceStart = 0 then
    if generatedLineCount = 0 then F64.nan
    else if 0 < generatedLineCount then F64.posInf
    else F64.negInf
  else
    F64.finite ((generatedLineCount : ℚ) / ((sinceStart : ℚ) / (nsPerSecond : ℚ)))

/-- Lines 83-85, executed once the loop has been left. -/
def summaryOf (s : RunState) (sinceStart : Int) : List LogEntry :=
  if s.stopped then
    [LogEntry.summary sinceStart s.generatedLineCount
      (observedRate s.generatedLineCount sinceStart)]
  else []

/-- The function `main` (lines 23-86) run against the events that reach the
select loop; `sinceStart` is the clock reading of line 83.  When the events
hold no signal the process is still inside the loop and has logged no summary. -/
def main (env : Env) (events : List Event) (sinceStart : Int) : List LogEntry :=
  let lpsStr := env.lpsStr.getD ""
  if lpsStr = "" then
    [LogEntry.error "LPS env variable not set"]
  else
    match Atoi lpsStr with
    | none => [LogEntry.error "LPS env variable is not a number."]
    | some lps =>
      if lps ≤ 0 then
        [LogEntry.error "LPS env variable must be positive number."]
      else
        let s := runLoop env lps events
        LogEntry.info s!"Generating logs at {lps} logs per second. Ctrl-C to stop."
          :: (s.out ++ summaryOf s sinceStart)

/-! ## Observations on a log -/

/-- Whether an entry is a record of line 73. -/
def LogEntry.isRecord : LogEntry → Bool
  | LogEntry.record _ _ _ => true
  | _ => false

/-- The `counter` fields of the records of a log, in order. -/
def counters : List LogEntry → List Int
  | [] => []
  | LogEntry.record _ counter _ :: rest => counter :: counters rest
  | _ :: rest => counters rest

/-- The summaries of a log as pairs (total, rate), in order. -/
def summaries : List LogEntry → List (Int × F64)
  | [] => []
  | LogEntry.summary _ total rate :: rest => (total, rate) :: summaries rest
  | _ :: rest => summaries rest

/-- An environment for concrete runs: `LPS=100`, a fixed uuid, always the
first template. -/
def sampleEnv : Env :=
  ⟨some "100", "00000000-0000-4000-8000-000000000000", fun _ => ⟨0, by decide⟩⟩

/-! ## Auxiliary definitions for the statements -/

/-- The records numbered `c+1, ..., c+k`, as the loop of lines 70-75 logs them. -/
def recordsFrom (env : Env) (c : Int) : Nat → List LogEntry
  | 0 => []
  | k + 1 =>
    LogEntry.record (logLines.get (env.draw c)) (c + 1) env.uuidStr :: recordsFrom env (c + 1) k

/-- The deficit `expectedLines - c` cut below at zero and above at `max`. -/
def burst (expectedLines c : Int) (max : Nat) : Nat :=
  min (expectedLines - c).toNat max

/-- The loop state in which `generatedLineCount = c`, nothing is logged yet and
the loop is running. -/
def startAt (c : Int) : RunState := ⟨c, [], false⟩

/-- A sequence of ticker events with the given clock readings. -/
def tickEvents (durs : List Int) : List Event := durs.map Event.tick

/-- The clock readings of an undisturbed run: the `k`-th tick (counted from 1)
is taken exactly at `k * tickInterval`. -/
def idealDurs (n : Nat) : List Int :=
  (List.range n).map (fun (k : Nat) => ((k : Int) + 1) * tickInterval)

/-- The events of an undisturbed run: its first `n` ticks. -/
def idealTicks (n : Nat) : List Event := tickEvents (idealDurs n)

/-- The records logged so far carry the counters `1, ..., generatedLineCount`. -/
def Numbered (s : RunState) : Prop :=
  0 ≤ s.generatedLineCount
  ∧ counters s.out
      = (List.range s.generatedLineCount.toNat).map (fun (i : Nat) => (i : Int) + 1)

/-! ## The emission loop in closed form -/

theorem emitLoop_eq (env : Env) (e : Int) (m : Nat) (c : Int) (out : List LogEntry) :
    emitLoop env e m c out
      = ⟨c + (burst e c m : Nat), m - burst e c m, out ++ recordsFrom env c (burst e c m)⟩ := by
  induction m generalizing c out with
  | zero => simp [emitLoop, burst, recordsFrom]
  | succ m ih =>
    unfold emitLoop
    by_cases h : c < e
    · have hb : burst e c (m + 1) = burst e (c + 1) m + 1 := by
        unfold burst; omega
      simp only [h, if_true, ih, hb, recordsFrom]
      congr 1
      · push_cast; ring
      · omega
      · simp
    · have hb : burst e c (m + 1) = 0 := by unfold burst; omega
      simp [h, hb, recordsFrom]

theorem tickWith_eq (env : Env) (e c : Int) :
    tickWith env e c
      = ⟨c + (burst e c burstCap : Nat), burstCap - burst e c burstCap,
          recordsFrom env c (burst e c burstCap)⟩ := by
  simp [tickWith, emitLoop_eq]

theorem emitLoop_count_le_sup (env : Env) (e : Int) (m : Nat) (c : Int)
    (out : List LogEntry) :
    c ≤ (emitLoop env e m c out).generatedLineCount
    ∧ (emitLoop env e m c out).generatedLineCount ≤ max c e := by
  rw [emitLoop_eq]
  simp only
  unfold burst
  constructor <;> omega

theorem burst_le (e c : Int) (m : Nat) : burst e c m ≤ m := by
  unfold burst; omega

theorem burst_of_lt (e c : Int) (m : Nat) (h : c < e) :
    (burst e c m : Int) = min (e - c) m := by
  unfold burst; omega

theorem burst_of_ge (e c : Int) (m : Nat) (h : e ≤ c) : burst e c m = 0 := by
  unfold burst; omega

theorem length_recordsFrom (env : Env) (c : Int) (k : Nat) :
    (recordsFrom env c k).length = k := by
  induction k generalizing c with
  | zero => rfl
  | succ k ih => simp [recordsFrom, ih]

theorem all_isRecord_recordsFrom (env : Env) (c : Int) (k : Nat) :
    (recordsFrom env c k).all LogEntry.isRecord = true := by
  induction k generalizing c with
  | zero => rfl
  | succ k ih => simp [recordsFrom, LogEntry.isRecord, ih]

theorem counters_append (xs ys : List LogEntry) :
    counters (xs ++ ys) = counters xs ++ counters ys := by
  induction xs with
  | nil => rfl
  | cons x xs ih => cases x <;> simp [counters, ih]

theorem summaries_append (xs ys : List LogEntry) :
    summaries (xs ++ ys) = summaries xs ++ summaries ys := by
  induction xs with
  | nil => rfl
  | cons x xs ih => cases x <;> simp [summaries, ih]

theorem counters_recordsFrom (env : Env) (c : Int) (k : Nat) :
    counters (recordsFrom env c k) = (List.range k).map (fun (i : Nat) => c + 1 + (i : Int)) := by
  induction k generalizing c with
  | zero => rfl
  | succ k ih =>
    rw [List.range_succ_eq_map]
    simp only [recordsFrom, counters, ih, List.map_cons, List.map_map]
    congr 1
    · simp
    · apply List.map_congr_left
      intro i _
      simp only [Function.comp, Nat.cast_succ]
      ring

theorem summaries_recordsFrom (env : Env) (c : Int) (k : Nat) :
    summaries (recordsFrom env c k) = [] := by
  induction k generalizing c with
  | zero => rfl
  | succ k ih => simp [recordsFrom, summaries, ih]

/-! ## The select loop: basic facts -/

theorem expectedLines_eq_floor (dur lps : Int) (hdur : 0 ≤ dur) (hlps : 0 < lps) :
    expectedLines dur lps = (dur * lps) / nsPerSecond := by
  unfold expectedLines
  exact Int.tdiv_eq_ediv (mul_nonneg hdur hlps.le) (by decide)

theorem step_of_stopped (env : Env) (lps : Int) (s : RunState) (ev : Event)
    (h : s.stopped = true) : step env lps s ev = s := by
  simp [step, h]

theorem step_tick (env : Env) (lps : Int) (s : RunState) (dur : Int)
    (h : s.stopped = false) :
    step env lps s (Event.tick dur)
      = ⟨s.generatedLineCount
            + (burst (expectedLines dur lps) s.generatedLineCount burstCap : Nat),
          s.out ++ recordsFrom env s.generatedLineCount
            (burst (expectedLines dur lps) s.generatedLineCount burstCap),
          false⟩ := by
  simp [step, h, tick, tickWith_eq]

theorem step_signal (env : Env) (lps : Int) (s : RunState) (h : s.stopped = false) :
    step env lps s Event.signal
      = ⟨s.generatedLineCount, s.out ++ [LogEntry.info "Stopped."], true⟩ := by
  simp [step, h]

theorem runFrom_nil (env : Env) (lps : Int) (s : RunState) :
    runFrom env lps s [] = s := rfl

theorem runFrom_cons (env : Env) (lps : Int) (s : RunState) (ev : Event) (evs : List Event) :
    runFrom env lps s (ev :: evs) = runFrom env lps (step env lps s ev) evs := rfl

theorem runFrom_append (env : Env) (lps : Int) (s : RunState) (xs ys : List Event) :
    runFrom env lps s (xs ++ ys) = runFrom env lps (runFrom env lps s xs) ys := by
  simp [runFrom, List.foldl_append]

theorem runFrom_of_stopped (env : Env) (lps : Int) (s : RunState) (evs : List Event)
    (h : s.stopped = true) : runFrom env lps s evs = s := by
  induction evs with
  | nil => rfl
  | cons ev evs ih => rw [runFrom_cons, step_of_stopped env lps s ev h, ih]

theorem runFrom_tickEvents_running (env : Env) (lps : Int) (s : RunState) (durs : List Int)
    (h : s.stopped = false) : (runFrom env lps s (tickEvents durs)).stopped = false := by
  induction durs generalizing s with
  | nil => exact h
  | cons d ds ih =>
    simp only [tickEvents, List.map_cons, runFrom_cons] at *
    apply ih
    rw [step_tick env lps s d h]

theorem step_count_mono (env : Env) (lps : Int) (s : RunState) (ev : Event) :
    s.generatedLineCount ≤ (step env lps s ev).generatedLineCount := by
  cases hs : s.stopped
  · cases ev with
    | tick dur => rw [step_tick env lps s dur hs]; simp
    | signal => rw [step_signal env lps s hs]
  · rw [step_of_stopped env lps s ev hs]

theorem runFrom_count_mono (env : Env) (lps : Int) (s : RunState) (evs : List Event) :
    s.generatedLineCount ≤ (runFrom env lps s evs).generatedLineCount := by
  induction evs generalizing s with
  | nil => exact le_refl _
  | cons ev evs ih =>
    rw [runFrom_cons]
    exact le_trans (step_count_mono env lps s ev) (ih _)

theorem numbered_init : Numbered RunState.init := by
  simp [Numbered, RunState.init, counters]

theorem numbered_step (env : Env) (lps : Int) (s : RunState) (ev : Event)
    (h : Numbered s) : Numbered (step env lps s ev) := by
  cases hs : s.stopped
  · cases ev with
    | tick dur =>
      rw [step_tick env lps s dur hs]
      obtain ⟨h0, hc⟩ := h
      generalize burst (expectedLines dur lps) s.generatedLineCount burstCap = k
      refine ⟨by simp only; omega, ?_⟩
      simp only [counters_append, counters_recordsFrom, hc]
      have hk : (s.generatedLineCount + (k : Int)).toNat = s.generatedLineCount.toNat + k := by
        omega
      rw [hk, List.range_add, List.map_append, List.map_map]
      congr 1
      apply List.map_congr_left
      intro i _
      simp only [Function.comp, Nat.cast_add]
      have : ((s.generatedLineCount.toNat : Nat) : Int) = s.generatedLineCount :=
        Int.toNat_of_nonneg h0
      omega
    | signal =>
      rw [step_signal env lps s hs]
      obtain ⟨h0, hc⟩ := h
      exact ⟨h0, by simp [counters_append, counters, hc]⟩
  · rw [step_of_stopped env lps s ev hs]; exact h

theorem numbered_runFrom (env : Env) (lps : Int) (s : RunState) (evs : List Event)
    (h : Numbered s) : Numbered (runFrom env lps s evs) := by
  induction evs generalizing s with
  | nil => exact h
  | cons ev evs ih => exact ih _ (numbered_step env lps s ev h)

/-! ## The ticker case: claims C1, C2, C3 -/

/-- C1. Tick handler: with `e` the expected line count of the tick (for the
handler `tick`, the value `expectedLines dur lps`) and `c` the count before
it, the tick logs exactly `min (e - c) burstCap` entries, all of them records,
when `e - c > 0`; it logs nothing and leaves the count unchanged when
`e - c ≤ 0`, which includes `e < c`. -/
theorem tick_emits_min_deficit_burstCap (env : Env) (e c : Int) :
    (0 < e - c →
        ((tickWith env e c).out.length : Int) = min (e - c) (burstCap : Int)
        ∧ (tickWith env e c).out.all LogEntry.isRecord = true)
    ∧ (e - c ≤ 0 →
        (tickWith env e c).out = [] ∧ (tickWith env e c).generatedLineCount = c)
    ∧ (∀ lps dur : Int, tick env lps dur c = tickWith env (expectedLines dur lps) c) := by
  refine ⟨fun h => ?_, fun h => ?_, fun _ _ => rfl⟩
  · have hb := burst_of_lt e c burstCap (by omega)
    simp only [tickWith_eq, length_recordsFrom, all_isRecord_recordsFrom, hb, and_self]
  · have hb := burst_of_ge e c burstCap (by omega)
    simp [tickWith_eq, hb, recordsFrom]

/-- C1 at concrete inputs: a deficit of 24993 is cut to 10000 records, a
deficit of -2 logs nothing. -/
theorem tick_emits_min_deficit_burstCap_witness :
    ((0 : Int) < 25000 - 7
      ∧ ((tickWith sampleEnv 25000 7).out.length : Int) = 10000)
    ∧ ((3 : Int) - 5 ≤ 0
      ∧ (tickWith sampleEnv 3 5).out = [] ∧ (tickWith sampleEnv 3 5).generatedLineCount = 5) :=
  ⟨⟨by decide, ((tick_emits_min_deficit_burstCap sampleEnv 25000 7).1 (by decide)).1⟩,
   ⟨by decide, (tick_emits_min_deficit_burstCap sampleEnv 3 5).2.1 (by decide)⟩⟩

/-- C2. Burst bounding: whatever the count before the tick and the expected
value, the emission loop stops after at most `burstCap` iterations: it logs at
most `burstCap = 10000` records, `max` has gone down by one per record, and
the state it returns falsifies the loop condition
`generatedLineCount < expectedLines && max > 0`. -/
theorem tick_burst_bounded (env : Env) (e c : Int) :
    (tickWith env e c).out.length ≤ burstCap
    ∧ burstCap = 10000
    ∧ (tickWith env e c).max + (tickWith env e c).out.length = burstCap
    ∧ ¬ ((tickWith env e c).generatedLineCount < e ∧ 0 < (tickWith env e c).max) := by
  have hle := burst_le e c burstCap
  simp only [tickWith_eq, length_recordsFrom]
  refine ⟨hle, rfl, by omega, ?_⟩
  unfold burst at *
  omega

/-- C5. Sequence numbering and count.  A tick entered with count `c` that logs
`k` records gives them the counters `c+1, ..., c+k` in this order and leaves
the count at `c+k`.  Over a run from the initial state the counters logged are
exactly `1, ..., n` for `n` the final count, and the count never decreases,
neither in one loop iteration nor along a longer sequence of events. -/
theorem counters_sequential (env : Env) (lps : Int) :
    (∀ e c : Int,
        counters (tickWith env e c).out
            = (List.range (tickWith env e c).out.length).map (fun (i : Nat) => c + 1 + (i : Int))
        ∧ (tickWith env e c).generatedLineCount = c + ((tickWith env e c).out.length : Int))
    ∧ (∀ events : List Event,
        0 ≤ (runLoop env lps events).generatedLineCount
        ∧ counters (runLoop env lps events).out
            = (List.range (runLoop env lps events).generatedLineCount.toNat).map
                (fun (i : Nat) => (i : Int) + 1))
    ∧ (∀ (s : RunState) (ev : Event),
        s.generatedLineCount ≤ (step env lps s ev).generatedLineCount)
    ∧ (∀ events more : List Event,
        (runLoop env lps events).generatedLineCount
          ≤ (runLoop env lps (events ++ more)).generatedLineCount) := by
  refine ⟨fun e c => ?_, fun events => ?_, step_count_mono env lps, fun events more => ?_⟩
  · simp [tickWith_eq, length_recordsFrom, counters_recordsFrom]
  · exact numbered_runFrom env lps RunState.init events numbered_init
  · rw [runLoop, runLoop, runFrom_append]
    exact runFrom_count_mono env lps _ more

/-! ## `main`: claims C7, C8, C9 -/

theorem Atoi_empty : Atoi "" = none := by decide

theorem main_of_valid (env : Env) (events : List Event) (t v : Int)
    (h : Atoi (env.lpsStr.getD "") = some v) (hv : 0 < v) :
    main env events t
      = LogEntry.info s!"Generating logs at {v} logs per second. Ctrl-C to stop."
          :: ((runLoop env v events).out ++ summaryOf (runLoop env v events) t) := by
  have hne : env.lpsStr.getD "" ≠ "" := by
    intro he
    rw [he, Atoi_empty] at h
    exact Option.noConfusion h
  have hv' : ¬ v ≤ 0 := not_le.mpr hv
  simp only [main, hne, h, hv', if_false]

theorem runLoop_signal (env : Env) (lps : Int) (pre : List Int) (post : List Event) :
    runLoop env lps (tickEvents pre ++ Event.signal :: post)
      = ⟨(runLoop env lps (tickEvents pre)).generatedLineCount,
          (runLoop env lps (tickEvents pre)).out ++ [LogEntry.info "Stopped."], true⟩ := by
  have hrun : (runLoop env lps (tickEvents pre)).stopped = false :=
    runFrom_tickEvents_running env lps RunState.init pre rfl
  rw [runLoop, runFrom_append, runFrom_cons]
  rw [show runFrom env lps RunState.init (tickEvents pre) = runLoop env lps (tickEvents pre) from rfl]
  rw [step_signal env lps _ hrun]
  exact runFrom_of_stopped env lps _ post rfl

theorem summaries_runFrom_out (env : Env) (lps : Int) (s : RunState)
    (evs : List Event) (h : summaries s.out = []) :
    summaries (runFrom env lps s evs).out = [] := by
  induction evs generalizing s with
  | nil => exact h
  | cons ev evs ih =>
    rw [runFrom_cons]
    apply ih
    cases hs : s.stopped
    · cases ev with
      | tick dur =>
        rw [step_tick env lps s dur hs]
        simp [summaries_append, summaries_recordsFrom, h]
      | signal =>
        rw [step_signal env lps s hs]
        simp [summaries_append, summaries, h]
    · rw [step_of_stopped env lps s ev hs]; exact h

/-- C7. Config rejection.  When `LPS` is unset or empty, when `strconv.Atoi`
rejects it, or when it parses to an integer `≤ 0`, `main` logs one error and
nothing else: no record, no summary, whatever events would have followed.
When it parses to `v > 0`, `main` logs the banner and enters the loop. -/
theorem config_rejection (env : Env) (events : List Event) (t : Int) :
    (env.lpsStr.getD "" = "" →
        main env events t = [LogEntry.error "LPS env variable not set"])
    ∧ (env.lpsStr.getD "" ≠ "" → Atoi (env.lpsStr.getD "") = none →
        main env events t = [LogEntry.error "LPS env variable is not a number."])
    ∧ (∀ v : Int, Atoi (env.lpsStr.getD "") = some v → v ≤ 0 →
        main env events t = [LogEntry.error "LPS env variable must be positive number."])
    ∧ (∀ v : Int, Atoi (env.lpsStr.getD "") = some v → 0 < v →
        main env events t
          = LogEntry.info s!"Generating logs at {v} logs per second. Ctrl-C to stop."
              :: ((runLoop env v events).out ++ summaryOf (runLoop env v events) t)) := by
  refine ⟨fun h => ?_, fun hne h => ?_, fun v h hv => ?_, fun v h hv => ?_⟩
  · simp [main, h]
  · simp [main, hne, h]
  · have hne : env.lpsStr.getD "" ≠ "" := by
      intro he
      rw [he, Atoi_empty] at h
      exact Option.noConfusion h
    simp [main, hne, h, hv]
  · exact main_of_valid env events t v h hv

/-- C7 at concrete values of `LPS`: unset, empty, `0`, `-5` and `abc` each
give a single error entry, hence no record and no summary, even with ticks
and a signal pending. -/
theorem config_rejection_witness :
    (main ⟨none, "u", fun _ => ⟨0, by decide⟩⟩ [Event.tick 1000000000, Event.signal] 5
        = [LogEntry.error "LPS env variable not set"])
    ∧ (main ⟨some "", "u", fun _ => ⟨0, by decide⟩⟩ [Event.tick 1000000000, Event.signal] 5
        = [LogEntry.error "LPS env variable not set"])
    ∧ (main ⟨some "0", "u", fun _ => ⟨0, by decide⟩⟩ [Event.tick 1000000000, Event.signal] 5
        = [LogEntry.error "LPS env variable must be positive number."])
    ∧ (main ⟨some "-5", "u", fun _ => ⟨0, by decide⟩⟩ [Event.tick 1000000000, Event.signal] 5
        = [LogEntry.error "LPS env variable must be positive number."])
    ∧ (main ⟨some "abc", "u", fun _ => ⟨0, by decide⟩⟩ [Event.tick 1000000000, Event.signal] 5
        = [LogEntry.error "LPS env variable is not a number."]) :=
  ⟨(config_rejection _ _ _).1 (by decide),
   (config_rejection _ _ _).1 (by decide),
   (config_rejection _ _ _).2.2.1 0 (by decide) (by decide),
   (config_rejection _ _ _).2.2.1 (-5) (by decide) (by decide),
   (config_rejection _ _ _).2.1 (by decide) (by decide)⟩

/-- C8, as stated, fails: a run stopped with zero elapsed time and no line
reports the rate NaN (`0/0`), not 0. -/
theorem summary_rate_counterexample :
    summaries (main sampleEnv [Event.signal] 0) = [(0, F64.nan)]
    ∧ summaries (main sampleEnv [Event.signal] 0) ≠ [(0, F64.finite 0)] := by
  decide

/-- C8, amended.  A run of `main` that leaves the loop logs one summary whose
rate is the unguarded quotient of line 85: `total / elapsedSeconds` when the
elapsed time is not zero; when it is zero, NaN for a total of 0 and `+Inf` for
a positive total, never 0. -/
theorem summary_rate_unguarded (env : Env) (events : List Event) (t v : Int)
    (h : Atoi (env.lpsStr.getD "") = some v) (hv : 0 < v)
    (hstop : (runLoop env v events).stopped = true) :
    summaries (main env events t)
        = [((runLoop env v events).generatedLineCount,
            observedRate (runLoop env v events).generatedLineCount t)]
    ∧ (t ≠ 0 →
        observedRate (runLoop env v events).generatedLineCount t
          = F64.finite (((runLoop env v events).generatedLineCount : ℚ)
              / ((t : ℚ) / (nsPerSecond : ℚ))))
    ∧ (t = 0 → (runLoop env v events).generatedLineCount = 0 →
        observedRate (runLoop env v events).generatedLineCount t = F64.nan)
    ∧ (t = 0 → 0 < (runLoop env v events).generatedLineCount →
        observedRate (runLoop env v events).generatedLineCount t = F64.posInf)
    ∧ (t = 0 → observedRate (runLoop env v events).generatedLineCount t ≠ F64.finite 0) := by
  have hn : 0 ≤ (runLoop env v events).generatedLineCount :=
    (numbered_runFrom env v RunState.init events numbered_init).1
  have hs : summaries (runLoop env v events).out = [] :=
    summaries_runFrom_out env v RunState.init events rfl
  refine ⟨?_, fun ht => ?_, fun ht h0 => ?_, fun ht hpos => ?_, fun ht => ?_⟩
  · rw [main_of_valid env events t v h hv]
    simp [summaries, summaries_append, hs, summaryOf, hstop]
  · simp [observedRate, ht]
  · simp [observedRate, ht, h0]
  · have : (runLoop env v events).generatedLineCount ≠ 0 := ne_of_gt hpos
    simp [observedRate, ht, this, hpos]
  · unfold observedRate
    rw [if_pos ht]
    split_ifs <;> simp

/-- C8 amended, at a run at 100 lines per second with one tick at 30 ms, the
signal, and the summary clock reading 40 ms. -/
theorem summary_rate_unguarded_witness :
    Atoi (sampleEnv.lpsStr.getD "") = some 100
    ∧ (runLoop sampleEnv 100 [Event.tick 30000000, Event.signal]).stopped = true
    ∧ summaries (main sampleEnv [Event.tick 30000000, Event.signal] 40000000)
        = [((runLoop sampleEnv 100 [Event.tick 30000000, Event.signal]).generatedLineCount,
            observedRate
              (runLoop sampleEnv 100 [Event.tick 30000000, Event.signal]).generatedLineCount
              40000000)]
    ∧ (runLoop sampleEnv 100 [Event.tick 30000000, Event.signal]).generatedLineCount = 3 :=
  ⟨by decide, by decide,
   (summary_rate_unguarded sampleEnv [Event.tick 30000000, Event.signal] 40000000 100
      (by decide) (by decide) (by decide)).1,
   by decide⟩

/-- C9. Cancellation stops emission.  For a run whose events are any ticks
`pre`, then the signal, then any events `post`: the loop ends in the state
reached after `pre` plus the entry "Stopped.", whatever `post` holds, so no
record is logged after the signal and the count stays what it was when the
signal was taken; the summary computed from that state, and the one `main`
logs, is a single entry whose total is that count. -/
theorem cancel_stops_emission (env : Env) (lps : Int) (pre : List Int) (post : List Event)
    (t : Int) :
    runLoop env lps (tickEvents pre ++ Event.signal :: post)
        = ⟨(runLoop env lps (tickEvents pre)).generatedLineCount,
            (runLoop env lps (tickEvents pre)).out ++ [LogEntry.info "Stopped."], true⟩
    ∧ counters (runLoop env lps (tickEvents pre ++ Event.signal :: post)).out
        = counters (runLoop env lps (tickEvents pre)).out
    ∧ summaryOf (runLoop env lps (tickEvents pre ++ Event.signal :: post)) t
        = [LogEntry.summary t (runLoop env lps (tickEvents pre)).generatedLineCount
            (observedRate (runLoop env lps (tickEvents pre)).generatedLineCount t)]
    ∧ (Atoi (env.lpsStr.getD "") = some lps → 0 < lps →
        counters (main env (tickEvents pre ++ Event.signal :: post) t)
            = counters (runLoop env lps (tickEvents pre)).out
        ∧ summaries (main env (tickEvents pre ++ Event.signal :: post) t)
            = [((runLoop env lps (tickEvents pre)).generatedLineCount,
                observedRate (runLoop env lps (tickEvents pre)).generatedLineCount t)]) := by
  have hrun := runLoop_signal env lps pre post
  have hs : summaries (runLoop env lps (tickEvents pre)).out = [] :=
    summaries_runFrom_out env lps RunState.init (tickEvents pre) rfl
  refine ⟨hrun, ?_, ?_, fun h hv => ⟨?_, ?_⟩⟩
  · rw [hrun]; simp [counters_append, counters]
  · rw [hrun]; simp [summaryOf]
  · rw [main_of_valid env _ t lps h hv, hrun]
    simp [counters, counters_append, summaryOf]
  · rw [main_of_valid env _ t lps h hv, hrun]
    simp [summaries, summaries_append, summaryOf, hs]

/-- C9 at a run at 100 lines per second: a tick at 30 ms, the signal, then a
tick at one second that is never taken. -/
theorem cancel_stops_emission_witness :
    Atoi (sampleEnv.lpsStr.getD "") = some 100
    ∧ counters (main sampleEnv (tickEvents [30000000] ++ Event.signal :: [Event.tick 1000000000]) 0)
        = counters (runLoop sampleEnv 100 (tickEvents [30000000])).out
    ∧ counters (runLoop sampleEnv 100 (tickEvents [30000000])).out = [1, 2, 3] :=
  ⟨by decide,
   ((cancel_stops_emission sampleEnv 100 [30000000] [Event.tick 1000000000] 0).2.2.2
      (by decide) (by decide)).1,
   by decide⟩

/-! ## Runs of several ticks: claims C6 and C10 -/

theorem tickEvents_cons (d : Int) (ds : List Int) :
    tickEvents (d :: ds) = Event.tick d :: tickEvents ds := rfl

theorem tickEvents_append (xs ys : List Int) :
    tickEvents (xs ++ ys) = tickEvents xs ++ tickEvents ys := by
  simp [tickEvents]

theorem idealDurs_succ (n : Nat) :
    idealDurs (n + 1) = idealDurs n ++ [((n : Int) + 1) * tickInterval] := by
  simp [idealDurs, List.range_succ]

theorem runFrom_saturated (env : Env) (lps : Int) (s : RunState) (durs : List Int)
    (hs : s.stopped = false)
    (h : ∀ k : Nat, k < durs.length →
      (runFrom env lps s (tickEvents (durs.take k))).generatedLineCount + (burstCap : Int)
        ≤ expectedLines (durs.getD k 0) lps) :
    (runFrom env lps s (tickEvents durs)).generatedLineCount
      = s.generatedLineCount + (durs.length : Int) * (burstCap : Int) := by
  induction durs generalizing s with
  | nil => simp [tickEvents, runFrom_nil]
  | cons d ds ih =>
    have h0 := h 0 (by simp)
    simp only [List.take_zero, tickEvents, List.map_nil, runFrom_nil, List.getD_cons_zero] at h0
    have hb : burst (expectedLines d lps) s.generatedLineCount burstCap = burstCap := by
      unfold burst; omega
    have hstep := step_tick env lps s d hs
    rw [hb] at hstep
    rw [tickEvents_cons, runFrom_cons, ih (step env lps s (Event.tick d))]
    · rw [hstep]; simp only [List.length_cons]; push_cast; ring
    · rw [hstep]
    · intro k hk
      have hk1 := h (k + 1) (by simp only [List.length_cons]; omega)
      simpa [tickEvents_cons, runFrom_cons] using hk1

theorem runLoop_idealTicks_succ (env : Env) (lps : Int) (n : Nat) :
    runLoop env lps (idealTicks (n + 1))
      = step env lps (runLoop env lps (idealTicks n))
          (Event.tick (((n : Int) + 1) * tickInterval)) := by
  unfold idealTicks runLoop
  rw [idealDurs_succ, tickEvents_append, runFrom_append]
  rfl

theorem runLoop_ideal_saturated (env : Env) (lps : Int) (hlps : 1000000 ≤ lps) (n : Nat) :
    (runLoop env lps (idealTicks n)).generatedLineCount = (n : Int) * (burstCap : Int)
    ∧ (runLoop env lps (idealTicks n)).stopped = false := by
  induction n with
  | zero => simp [idealTicks, idealDurs, tickEvents, runLoop, runFrom_nil, RunState.init]
  | succ n ih =>
    obtain ⟨hc, hs⟩ := ih
    have hE : (n : Int) * 10000 + 10000 ≤ expectedLines (((n : Int) + 1) * tickInterval) lps := by
      rw [expectedLines_eq_floor _ _ (by unfold tickInterval; positivity) (by omega)]
      unfold tickInterval nsPerSecond
      have h1 : ((n : Int) + 1) * 10000000 * 1000000 ≤ ((n : Int) + 1) * 10000000 * lps :=
        mul_le_mul_of_nonneg_left hlps (by positivity)
      have h2 := Int.ediv_le_ediv (show (0 : Int) < 1000000000 by decide) h1
      have h3 : ((n : Int) + 1) * 10000000 * 1000000 / 1000000000 = (n : Int) * 10000 + 10000 := by
        omega
      omega
    rw [runLoop_idealTicks_succ, step_tick env lps _ _ hs, hc]
    refine ⟨?_, rfl⟩
    have hb : burst (expectedLines (((n : Int) + 1) * tickInterval) lps)
        ((n : Int) * (burstCap : Int)) burstCap = burstCap := by
      unfold burst burstCap; push_cast; omega
    simp only [hb]; push_cast; ring

/-- C6. Saturation.  From any starting count `c`, over any sequence of ticks
each of whose expected values is at least the count before that tick plus
`burstCap`, the count ends at `c + n * burstCap` for `n` the number of ticks;
the rate enters only through that condition.  In the undisturbed run at
`10_000_000` lines per second the first 50 ticks (0.5 s at 10 ms per tick)
leave the count at 500000. -/
theorem saturation (env : Env) :
    (∀ (lps c : Int) (durs : List Int),
        (∀ k : Nat, k < durs.length →
          (runFrom env lps (startAt c) (tickEvents (durs.take k))).generatedLineCount
              + (burstCap : Int)
            ≤ expectedLines (durs.getD k 0) lps) →
        (runFrom env lps (startAt c) (tickEvents durs)).generatedLineCount
          = c + (durs.length : Int) * (burstCap : Int))
    ∧ (runLoop env 10000000 (idealTicks 50)).generatedLineCount = 500000 := by
  refine ⟨fun lps c durs h => runFrom_saturated env lps (startAt c) durs rfl h, ?_⟩
  rw [(runLoop_ideal_saturated env 10000000 (by decide) 50).1]
  rfl

/-- C6 at two ticks, at 10 ms and 20 ms, of a run at 10_000_000 lines per
second entered with a count of 7. -/
theorem saturation_witness :
    (runFrom sampleEnv 10000000 (startAt 7) (tickEvents [10000000, 20000000])).generatedLineCount
      = 7 + (([10000000, 20000000] : List Int).length : Int) * (burstCap : Int) :=
  (saturation sampleEnv).1 10000000 7 [10000000, 20000000] (by
    intro k hk
    have hk2 : k < 2 := hk
    interval_cases k
    · decide
    · have h1 := (saturation sampleEnv).1 10000000 7 [10000000] (by
        intro j hj
        have hj1 : j < 1 := hj
        interval_cases j
        decide)
      simp only [List.take_succ_cons, List.take_zero, h1]
      decide)

theorem runFrom_replicate_tick (env : Env) (lps dur : Int) (s : RunState) (k : Nat)
    (hs : s.stopped = false) (h : s.generatedLineCount ≤ expectedLines dur lps) :
    (runFrom env lps s (List.replicate k (Event.tick dur))).generatedLineCount
      = min (expectedLines dur lps) (s.generatedLineCount + (k : Int) * (burstCap : Int)) := by
  induction k generalizing s with
  | zero => simp [runFrom_nil, h]
  | succ k ih =>
    have hstep := step_tick env lps s dur hs
    rw [List.replicate_succ, runFrom_cons, ih (step env lps s (Event.tick dur))]
    · rw [hstep]
      simp only
      unfold burst
      push_cast
      have hmul : ((k : Int) + 1) * (burstCap : Int) = (k : Int) * (burstCap : Int) + burstCap := by
        ring
      have hx : 0 ≤ (k : Int) * (burstCap : Int) :=
        mul_nonneg (Int.ofNat_nonneg k) (Int.ofNat_nonneg burstCap)
      rw [hmul]
      generalize (k : Int) * (burstCap : Int) = x at hx ⊢
      omega
    · rw [hstep]
    · rw [hstep]
      simp only
      unfold burst
      omega

/-- C10. Self-correcting catch-up.  The count after a tick is determined by
the count before it and the expected value alone: not by what has been logged,
nor by the uuid or the random draws.  For a fixed elapsed time with expected
value `E` and a starting count `c ≤ E`, `k` consecutive ticks leave the count
at `min E (c + k * burstCap)`; so from `k = ceil((E - c) / burstCap)` ticks on
the count is `E`, and a tick entered with count `E` logs nothing. -/
theorem catch_up (env : Env) (lps dur c : Int) (k : Nat) (h : c ≤ expectedLines dur lps) :
    (∀ (env2 : Env) (s s2 : RunState), s.stopped = false → s2.stopped = false →
        s.generatedLineCount = s2.generatedLineCount →
        (step env lps s (Event.tick dur)).generatedLineCount
          = (step env2 lps s2 (Event.tick dur)).generatedLineCount)
    ∧ (runFrom env lps (startAt c) (List.replicate k (Event.tick dur))).generatedLineCount
        = min (expectedLines dur lps) (c + (k : Int) * (burstCap : Int))
    ∧ ((expectedLines dur lps - c + ((burstCap : Int) - 1)) / (burstCap : Int) ≤ (k : Int) →
        (runFrom env lps (startAt c) (List.replicate k (Event.tick dur))).generatedLineCount
          = expectedLines dur lps)
    ∧ (tick env lps dur (expectedLines dur lps)).out = []
    ∧ (tick env lps dur (expectedLines dur lps)).generatedLineCount = expectedLines dur lps := by
  have hrun := runFrom_replicate_tick env lps dur (startAt c) k rfl h
  refine ⟨fun env2 s s2 hs hs2 hc => ?_, hrun, fun hk => ?_, ?_, ?_⟩
  · rw [step_tick env lps s dur hs, step_tick env2 lps s2 dur hs2, hc]
  · rw [hrun]
    simp only [startAt]
    unfold burstCap at *
    push_cast at *
    generalize expectedLines dur lps = E at *
    omega
  · simp [tick, tickWith_eq, burst, recordsFrom]
  · simp [tick, tickWith_eq, burst]

/-- C10 at a tick reading 3 s of a run at 10000 lines per second (30000 lines
expected) entered with 5 lines: three ticks at that reading recover the
deficit of 29995. -/
theorem catch_up_witness :
    (5 : Int) ≤ expectedLines 3000000000 10000
    ∧ (runFrom sampleEnv 10000 (startAt 5)
          (List.replicate 3 (Event.tick 3000000000))).generatedLineCount
        = min (expectedLines 3000000000 10000) (5 + ((3 : Nat) : Int) * (burstCap : Int))
    ∧ min (expectedLines 3000000000 10000) (5 + ((3 : Nat) : Int) * (burstCap : Int)) = 30000 :=
  ⟨by decide, (catch_up sampleEnv 10000 3000000000 5 3 (by decide)).2.1, by decide⟩

/-! ## Rate convergence: claim C4 -/

end LogGen
